import Mathlib

/-!
Verification of the table-data abstraction layer of `src/tableviewer.py`
(CellProfiler-Analyst table viewer).

The development shallowly embeds the two table views of the source:

* `PlainTable` — the in-memory view (`PlainTable` in the source), whose cells
  are modelled as integers (a linear order standing in for the Python values
  numpy compares), with its sort state, row/column orders and materialized
  `ordered_data`;
* `DBTable` — the database-backed view (`DBTable` in the source), with its
  ORDER BY list, shared direction flag, FIFO row cache (`odict`), row
  interval and filter string.  The backing store is modelled as the data
  matrix itself, with `ORDER BY` evaluated as a deterministic stable sort.

`np.lexsort` is embedded by its documented semantics: an indirect stable
sort on a sequence of keys in which the LAST key of the sequence is the
primary one.
-/

/-- Cell `data[i][c]` of a 2-D list, defaulting to `0` out of range (the
source indexes a rectangular numpy array, so in-range accesses are the ones
that matter). -/
def cellAt (data : List (List Int)) (i c : Nat) : Int :=
  (data.getD i []).getD c 0

/-- Column extraction `data[:, c]`. -/
def columnAt (data : List (List Int)) (c : Nat) : List Int :=
  data.map (fun row => row.getD c 0)

/-- Fancy column selection `data[:, cols]`. -/
def selectCols (data : List (List Int)) (cols : List Nat) : List (List Int) :=
  data.map (fun row => cols.map (fun c => row.getD c 0))

/-- Row selection `data[rows, :]`. -/
def selectRows (data : List (List Int)) (rows : List Nat) : List (List Int) :=
  rows.map (fun i => data.getD i [])

/-- Strict lexicographic comparison of key tuples (first component is the
most significant). -/
def lexLtB : List Int → List Int → Bool
  | _, [] => false
  | [], _ :: _ => true
  | a :: as, b :: bs => if a < b then true else if b < a then false else lexLtB as bs

/-- Stable insertion into an already sorted list of row indices: `x` is
placed before the first element whose key is not strictly below `x`'s key,
so an element inserted later (which originated EARLIER in the input) lands
before elements with equal keys. -/
def ordInsert (lt : List Int → List Int → Bool) (key : Nat → List Int) (x : Nat) :
    List Nat → List Nat
  | [] => [x]
  | y :: ys => if lt (key y) (key x) then y :: ordInsert lt key x ys else x :: y :: ys

/-- Stable insertion sort of row indices by key, with strict comparison
`lt`. -/
def ordSort (lt : List Int → List Int → Bool) (key : Nat → List Int) :
    List Nat → List Nat
  | [] => []
  | x :: xs => ordInsert lt key x (ordSort lt key xs)

/-- Embedding of `np.lexsort(keys)` over `n` rows: indirect stable sort of
`0..n-1`; numpy documents that the last key in the sequence is the primary
sort key, so index `i` is compared by the tuple of key values read off in
reversed key order. -/
def npLexsort (keys : List (List Int)) (n : Nat) : List Nat :=
  ordSort lexLtB (fun i => keys.reverse.map (fun k => k.getD i 0)) (List.range n)

/-- Spec-level definition (from the specification's words): the stable
lexicographic multi-key sort of the rows keyed by the columns `cols`, the
FIRST column of `cols` being the primary key. -/
def stableMultiSort (data : List (List Int)) (cols : List Nat) (n : Nat) : List Nat :=
  ordSort lexLtB (fun i => cols.map (fun c => cellAt data i c)) (List.range n)

/-- The in-memory table view (`PlainTable` of the source): complete data,
sort state, row/column orders, and the materialized `ordered_data`. -/
structure PlainTable where
  data : List (List Int)
  sortdir : Int
  sortcols : List Nat
  shown_columns : List Nat
  row_order : List Nat
  col_order : List Nat
  ordered_data : List (List Int)
deriving DecidableEq

/-- `self.data[self.row_order,:][:,self.col_order]` — the two-step fancy
indexing the source uses to rebuild `ordered_data`. -/
def orderedOf (data : List (List Int)) (ro co : List Nat) : List (List Int) :=
  selectCols (selectRows data ro) co

/-- `PlainTable.__init__`: identity orders, empty sort-column list,
`sortdir = 1`, `ordered_data = data`; `ncols` is the number of column
labels (asserted equal to `data.shape[1]` in the source). -/
def PlainTable.init (data : List (List Int)) (ncols : Nat) : PlainTable :=
  { data := data
    sortdir := 1
    sortcols := []
    shown_columns := List.range ncols
    row_order := List.range data.length
    col_order := List.range ncols
    ordered_data := data }

/-- `PlainTable.set_shown_columns`: replaces `shown_columns` and `col_order`
by the given indices and re-materializes `ordered_data`. -/
def PlainTable.set_shown_columns (t : PlainTable) (col_indices : List Nat) : PlainTable :=
  { t with shown_columns := col_indices
           col_order := col_indices
           ordered_data := orderedOf t.data t.row_order col_indices }

/-- `PlainTable.set_sort_col(col_index, add)`, lines 270–295 of the source.
`add=False`: if the column is in `sortcols`, reverse `row_order` and flip
`sortdir`; otherwise `sortdir := 1`, `sortcols := [col_index]` and
`row_order := np.lexsort(data[:,col_order][:,sortcols[::-1]].T)`.
`add=True`: toggle membership of `col_index` in `sortcols` (`list.remove`
drops the first occurrence); if the list became empty reset `row_order` to
`arange`, else `row_order := np.lexsort(data[:,sortcols[::-1]].T)`.
Both paths end by rebuilding `ordered_data`. -/
def PlainTable.set_sort_col (t : PlainTable) (col_index : Nat) (add : Bool) : PlainTable :=
  let t1 :=
    if add = false then
      if 0 < t.sortcols.length ∧ col_index ∈ t.sortcols then
        { t with row_order := t.row_order.reverse, sortdir := -t.sortdir }
      else
        let sc := [col_index]
        { t with sortdir := 1
                 sortcols := sc
                 row_order :=
                   npLexsort (sc.reverse.map (columnAt (selectCols t.data t.col_order)))
                     t.data.length }
    else
      let sc := if col_index ∈ t.sortcols then t.sortcols.erase col_index
                else t.sortcols ++ [col_index]
      if sc = [] then
        { t with sortcols := sc, row_order := List.range t.data.length }
      else
        { t with sortcols := sc
                 row_order := npLexsort (sc.reverse.map (columnAt t.data)) t.data.length }
  { t1 with ordered_data := orderedOf t1.data t1.row_order t1.col_order }

/-- `PlainTable.GetValue(row, col) = ordered_data[row, col]`. -/
def PlainTable.GetValue (t : PlainTable) (row col : Nat) : Int :=
  cellAt t.ordered_data row col

/-- `PlainTable.GetNumberRows = ordered_data.shape[0]`. -/
def PlainTable.GetNumberRows (t : PlainTable) : Nat :=
  t.ordered_data.length

/-- `PlainTable.GetNumberCols = ordered_data.shape[1]` (width of the first
row in the list model). -/
def PlainTable.GetNumberCols (t : PlainTable) : Nat :=
  (t.ordered_data.getD 0 []).length

/-- The ordered dictionary `odict` of the source: an insertion-ordered key
list `_keys` plus the mapping `_data` (an association list with unique
keys, modelling the Python dict). -/
structure Odict where
  ks : List Nat
  dt : List (Nat × List Int)
deriving DecidableEq

/-- The empty cache (also the result of `cache.clear()`). -/
def Odict.empty : Odict := { ks := [], dt := [] }

/-- Dict assignment `_data[key] = value`: replace in place if the key is
present, append otherwise. -/
def dtSet : List (Nat × List Int) → Nat → List Int → List (Nat × List Int)
  | [], k, v => [(k, v)]
  | (k0, v0) :: rest, k, v =>
      if k0 = k then (k, v) :: rest else (k0, v0) :: dtSet rest k v

/-- `odict.__setitem__`: append the key to `_keys` only when it is not yet
in `_data`, then store the value.  Re-inserting an existing key does NOT
move it (insertion order, not recency order). -/
def Odict.setItem (c : Odict) (k : Nat) (v : List Int) : Odict :=
  if (List.lookup k c.dt).isSome then { c with dt := dtSet c.dt k v }
  else { ks := c.ks ++ [k], dt := dtSet c.dt k v }

/-- `odict.__delitem__`: drop the key from `_data` and from `_keys`
(`list.remove` removes the first occurrence). -/
def Odict.delItem (c : Odict) (k : Nat) : Odict :=
  { ks := c.ks.erase k, dt := c.dt.filter (fun p => p.1 != k) }

/-- `cache.update((lo+i, v) for i, v in enumerate(vals))`. -/
def Odict.insertFrom (c : Odict) (k : Nat) : List (List Int) → Odict
  | [] => c
  | v :: vs => Odict.insertFrom (c.setItem k v) (k + 1) vs

/-- The eviction loop of `DBTable.GetValue`:
`for key in self.cache.keys()[:-500]: del self.cache[key]` — a snapshot of
all but the last 500 keys is taken up front and each is deleted. -/
def Odict.evictOldest (c : Odict) : Odict :=
  (c.ks.take (c.ks.length - 500)).foldl Odict.delItem c

/-- The cache transition of one `DBTable.GetValue` miss: the fetched batch
`vals` is inserted starting at absolute row `lo`, then, if the cache has
grown past 5000 entries, all but the 500 most recently inserted keys are
deleted. -/
def dbCacheFetch (c : Odict) (lo : Nat) (vals : List (List Int)) : Odict :=
  let c1 := c.insertFrom lo vals
  if 5000 < c1.ks.length then c1.evictOldest else c1

/-- Python values as far as `set_row_interval` observes them: integers and
strings (an absent argument is `Option.none` at the call site, like the
`None` default). -/
inductive PyVal where
  | vint : Int → PyVal
  | vstr : String → PyVal
deriving DecidableEq

/-- Digit run of Python `int(str)`: accumulates decimal digits, failing on
any non-digit. -/
def digitsCore : List Char → Nat → Option Nat
  | [], acc => some acc
  | ch :: cs, acc =>
      if ch.isDigit then digitsCore cs (acc * 10 + (ch.toNat - 48)) else none

/-- Python `int()` on a string: an optional sign followed by at least one
digit (whitespace trimming is not modelled; no caller passes padded
strings). -/
def parseIntStr (s : String) : Option Int :=
  match s.toList with
  | [] => none
  | '-' :: cs => if cs = [] then none else (digitsCore cs 0).map (fun n => -(n : Int))
  | '+' :: cs => if cs = [] then none else (digitsCore cs 0).map (fun n => (n : Int))
  | cs => (digitsCore cs 0).map (fun n => (n : Int))

/-- Python `int(x)` for the values `set_row_interval` can receive: an int
converts to itself (negative ints included), a string is parsed. -/
def pyToInt : PyVal → Option Int
  | .vint n => some n
  | .vstr s => parseIntStr s

/-- The database-backed view (`DBTable` of the source).  Column labels are
identified with their indices `0 .. ncols-1` (the source's
`col_labels` array is injective for a database table), so `order_by` is a
list of column indices whose first element is first in the generated
`ORDER BY` clause.  `order_direction = true` means `ASC`. -/
structure DBTable where
  table_name : String
  shown_columns : List Nat
  order_by : List Nat
  order_direction : Bool
  cache : Odict
  rmin : PyVal
  rmax : PyVal
  filter : String
  key_indices : Option (List Nat)
deriving DecidableEq

/-- `DBTable.__init__` by way of `set_table` and `set_row_interval(None,
None)`: fresh cache, all columns shown, `order_by = [col_labels[0]]`,
direction `ASC`, `rmin = 0`, `rmax = COUNT(*)`, empty filter.
`key_indices` is the externally computed key-column position list
(`None` unless the table is the designated image or object table). -/
def DBTable.init (name : String) (ncols : Nat) (total : Int)
    (key_indices : Option (List Nat)) : DBTable :=
  { table_name := name
    shown_columns := List.range ncols
    order_by := [0]
    order_direction := true
    cache := Odict.empty
    rmin := .vint 0
    rmax := .vint total
    filter := ""
    key_indices := key_indices }

/-- `DBTable.set_shown_columns`: replace the projection and clear the
cache. -/
def DBTable.set_shown_columns (st : DBTable) (col_indices : List Nat) : DBTable :=
  { st with shown_columns := col_indices, cache := Odict.empty }

/-- `DBTable.set_sort_col(col_index, add)`, lines 333–350 of the source.
`add=True`: remove the column if present (resetting to `[col_labels[0]]`
if the list became empty), else append it.  `add=False`: if the column is
present flip the shared direction, else replace the list by that single
column (the direction is left as it was).  The cache is cleared in every
case. -/
def DBTable.set_sort_col (st : DBTable) (col_index : Nat) (add : Bool) : DBTable :=
  let st1 :=
    if add then
      if col_index ∈ st.order_by then
        let ob := st.order_by.erase col_index
        { st with order_by := if ob = [] then [0] else ob }
      else
        { st with order_by := st.order_by ++ [col_index] }
    else
      if col_index ∈ st.order_by then
        { st with order_direction := !st.order_direction }
      else
        { st with order_by := [col_index] }
  { st1 with cache := Odict.empty }

/-- `TableData.set_filter` (inherited unchanged by `DBTable`): records the
filter string and nothing else. -/
def DBTable.set_filter (st : DBTable) (f : String) : DBTable :=
  { st with filter := f }

/-- `DBTable.set_row_interval(rmin, rmax)`, lines 352–364 of the source:
the cache is cleared first; `None` endpoints default to `0` and to the
total row count; then `int()` is tried on both values — if either fails
the call raises (first component `false`) with `rmin`/`rmax` NOT updated;
on success the ORIGINAL (unconverted) values are stored. -/
def DBTable.set_row_interval (st : DBTable) (total : Int)
    (a b : Option PyVal) : Bool × DBTable :=
  let st1 := { st with cache := Odict.empty }
  let rmin := a.getD (.vint 0)
  let rmax := b.getD (.vint total)
  match pyToInt rmin, pyToInt rmax with
  | some _, some _ => (true, { st1 with rmin := rmin, rmax := rmax })
  | _, _ => (false, st1)

/-- `DBTable.GetNumberRows` for integer-valued bounds (the ones every
caller produces): `total` is the fresh `COUNT(*)` result, and the window
formula applies only when BOTH `rmax` and `rmin` are truthy, i.e.
nonzero (`if self.rmax and self.rmin`). -/
def dbGetNumberRows (total rmin rmax : Int) : Int :=
  if rmax ≠ 0 ∧ rmin ≠ 0 then min rmax total - rmin + 1 else total

/-- The row order the store's `ORDER BY c1 dir, c2 dir, ...` evaluation
produces on the modelled data: a deterministic stable sort keyed by the
`order_by` columns in clause order (first column primary), ascending when
the shared direction is `ASC` and descending otherwise.  (SQL guarantees
no tie order; the model resolves ties stably.) -/
def dbRowOrder (data : List (List Int)) (st : DBTable) : List Nat :=
  if st.order_direction then
    ordSort lexLtB (fun i => st.order_by.map (fun c => cellAt data i c))
      (List.range data.length)
  else
    ordSort (fun x y => lexLtB y x) (fun i => st.order_by.map (fun c => cellAt data i c))
      (List.range data.length)

/-- Errors the `DBTable` key-lookup path can raise. -/
inductive PyErr where
  | typeError
  | notImplemented
deriving DecidableEq

/-- `DBTable.get_row_key(row)`: a single-row query
`SELECT keycols ... ORDER BY ... LIMIT row,1` under the current sort.
When `key_indices` is `None` (any table other than the designated image
and object tables), `self.col_labels[self.key_indices]` indexes the label
array with `None` and the `','.join(...)` over the resulting 2-D array
raises a `TypeError` before any query is issued. -/
def DBTable.get_row_key (st : DBTable) (data : List (List Int)) (row : Nat) :
    Except PyErr (List Int) :=
  match st.key_indices with
  | none => .error .typeError
  | some ks => .ok (ks.map (fun c => cellAt data ((dbRowOrder data st).getD row 0) c))

/-- `DBTable.get_image_keys_at_row(row)`, lines 374–383: the row key is
fetched FIRST; then the image table returns `[key]`, the object table
returns `[key[:-1]]`, and any other table raises `NotImplementedError`.
`imgT`/`objT` are `p.image_table`/`p.object_table`. -/
def DBTable.get_image_keys_at_row (imgT objT : String) (st : DBTable)
    (data : List (List Int)) (row : Nat) : Except PyErr (List (List Int)) :=
  match st.get_row_key data row with
  | .error e => .error e
  | .ok key =>
      if st.table_name = imgT then .ok [key]
      else if st.table_name = objT then .ok [key.dropLast]
      else .error .notImplemented

lemma ordInsert_perm (lt : List Int → List Int → Bool) (key : Nat → List Int)
    (x : Nat) (l : List Nat) : (ordInsert lt key x l).Perm (x :: l) := by
  induction l with
  | nil => simp [ordInsert]
  | cons y ys ih =>
      by_cases h : lt (key y) (key x) = true
      · simpa [ordInsert, h] using ((ih.cons y).trans (List.Perm.swap x y ys))
      · simp [ordInsert, h]

lemma ordSort_perm (lt : List Int → List Int → Bool) (key : Nat → List Int)
    (l : List Nat) : (ordSort lt key l).Perm l := by
  induction l with
  | nil => simp [ordSort]
  | cons x xs ih =>
      exact (ordInsert_perm lt key x (ordSort lt key xs)).trans (ih.cons x)

lemma columnAt_getD (data : List (List Int)) (c i : Nat) :
    (columnAt data c).getD i 0 = cellAt data i c := by
  induction data generalizing i with
  | nil => cases i <;> simp [columnAt, cellAt]
  | cons row rows ih =>
      cases i with
      | zero => simp [columnAt, cellAt]
      | succ j => simpa [columnAt, cellAt] using ih j

lemma npLexsort_eq_multiSort (data : List (List Int)) (cols : List Nat) (n : Nat) :
    npLexsort (cols.reverse.map (columnAt data)) n = stableMultiSort data cols n := by
  unfold npLexsort stableMultiSort
  have hkey : (fun i => ((cols.reverse.map (columnAt data)).reverse).map
      (fun k => k.getD i 0)) = fun i => cols.map (fun c => cellAt data i c) := by
    funext i
    rw [← List.map_reverse, List.reverse_reverse, List.map_map]
    refine List.map_congr_left ?_
    intro a _
    exact columnAt_getD data a i
  rw [hkey]

lemma getD_map_lt {α β : Type} [Inhabited β] (f : α → β) (l : List α) (i : Nat)
    (d0 : α) (h : i < l.length) : (l.map f).getD i default = f (l.getD i d0) := by
  induction l generalizing i with
  | nil => simp at h
  | cons a t ih =>
      cases i with
      | zero => simp
      | succ j => simpa using ih j (Nat.lt_of_succ_lt_succ h)

lemma orderedOf_map (data : List (List Int)) (ro co : List Nat) :
    orderedOf data ro co = ro.map (fun i => co.map (fun c => cellAt data i c)) := by
  unfold orderedOf selectCols selectRows cellAt
  rw [List.map_map]
  rfl

lemma lookup_filter_ne (k p : Nat) (h : k ≠ p) :
    ∀ l : List (Nat × List Int),
      List.lookup k (l.filter (fun q => q.1 != p)) = List.lookup k l := by
  intro l
  induction l with
  | nil => rfl
  | cons q t ih =>
      obtain ⟨a, b⟩ := q
      by_cases hap : a = p
      · have hk : (k == p) = false := by simp [h]
        simp [List.filter_cons, List.lookup, hap, hk, ih]
      · by_cases hka : k = a
        · simp [List.filter_cons, List.lookup, hap, hka]
        · have hk : (k == a) = false := by simp [hka]
          simp [List.filter_cons, List.lookup, hap, hk, ih]

lemma delItem_fold_ks (rest : List Nat) :
    ∀ (pre : List Nat) (c : Odict), c.ks = pre ++ rest →
      (pre.foldl Odict.delItem c).ks = rest := by
  intro pre
  induction pre with
  | nil => intro c hc; simpa using hc
  | cons p ps ih =>
      intro c hc
      have hstep : (Odict.delItem c p).ks = ps ++ rest := by
        simp [Odict.delItem, hc]
      exact ih (Odict.delItem c p) hstep

lemma delItem_fold_lookup :
    ∀ (pre : List Nat) (c : Odict) (k : Nat), k ∉ pre →
      List.lookup k (pre.foldl Odict.delItem c).dt = List.lookup k c.dt := by
  intro pre
  induction pre with
  | nil => intro c k _; rfl
  | cons p ps ih =>
      intro c k hk
      have hkp : k ≠ p := fun hkp => hk (hkp ▸ List.mem_cons_self p ps)
      have hkps : k ∉ ps := fun hm => hk (List.mem_cons_of_mem p hm)
      have hone : List.lookup k (Odict.delItem c p).dt = List.lookup k c.dt := by
        simpa [Odict.delItem] using lookup_filter_ne k p hkp c.dt
      have := ih (Odict.delItem c p) k hkps
      calc List.lookup k ((p :: ps).foldl Odict.delItem c).dt
      _ = List.lookup k (ps.foldl Odict.delItem (Odict.delItem c p)).dt := rfl
      _ = List.lookup k (Odict.delItem c p).dt := this
      _ = List.lookup k c.dt := hone

lemma evictOldest_spec (c : Odict) (hn : c.ks.Nodup) (hlen : 5000 < c.ks.length) :
    c.evictOldest.ks = c.ks.drop (c.ks.length - 500) ∧
    c.evictOldest.ks.length = 500 ∧
    ∀ k ∈ c.ks.drop (c.ks.length - 500),
      List.lookup k c.evictOldest.dt = List.lookup k c.dt := by
  have hsplit : c.ks = c.ks.take (c.ks.length - 500) ++ c.ks.drop (c.ks.length - 500) :=
    (List.take_append_drop _ c.ks).symm
  have hks : c.evictOldest.ks = c.ks.drop (c.ks.length - 500) :=
    delItem_fold_ks _ _ c hsplit
  have hdisj : List.Disjoint (c.ks.take (c.ks.length - 500))
      (c.ks.drop (c.ks.length - 500)) := by
    have := hsplit ▸ hn
    exact (List.nodup_append.mp this).2.2
  refine ⟨hks, ?_, ?_⟩
  · rw [hks, List.length_drop]
    omega
  · intro k hkmem
    have hknot : k ∉ c.ks.take (c.ks.length - 500) := fun hin => hdisj hin hkmem
    exact delItem_fold_lookup _ c k hknot

lemma setItem_existing_ks (c : Odict) (k : Nat) (v : List Int)
    (h : (List.lookup k c.dt).isSome = true) : (c.setItem k v).ks = c.ks := by
  simp [Odict.setItem, h]

/-- The structural invariant of the in-memory view (claim C10): `row_order`
is a permutation of `0 .. data.length - 1` and `ordered_data` is the data
re-indexed by `row_order` and `col_order`. -/
def PlainInv (t : PlainTable) : Prop :=
  t.row_order.Perm (List.range t.data.length) ∧
  t.ordered_data = orderedOf t.data t.row_order t.col_order

lemma row_self_map (row : List Int) :
    (List.range row.length).map (fun c => row.getD c 0) = row := by
  refine List.ext_getElem (by simp) ?_
  intro i h1 h2
  simp only [List.getElem_map, List.getElem_range]
  exact List.getD_eq_getElem row 0 h2

lemma orderedOf_self (data : List (List Int)) (ncols : Nat)
    (hrect : ∀ row ∈ data, row.length = ncols) :
    orderedOf data (List.range data.length) (List.range ncols) = data := by
  rw [orderedOf_map]
  refine List.ext_getElem (by simp) ?_
  intro i h1 h2
  have h1' : i < data.length := by simpa using h1
  have hmem : data[i] ∈ data := List.getElem_mem h2
  have hlen : data[i].length = ncols := hrect _ hmem
  simp only [List.getElem_map, List.getElem_range]
  unfold cellAt
  rw [List.getD_eq_getElem data [] h1']
  calc (List.range ncols).map (fun c => data[i].getD c 0)
  _ = (List.range data[i].length).map (fun c => data[i].getD c 0) := by rw [hlen]
  _ = data[i] := row_self_map _

lemma plainInv_init (data : List (List Int)) (ncols : Nat)
    (hrect : ∀ row ∈ data, row.length = ncols) :
    PlainInv (PlainTable.init data ncols) := by
  constructor
  · exact List.Perm.refl _
  · exact (orderedOf_self data ncols hrect).symm

lemma plainInv_set_shown_columns (t : PlainTable) (cols : List Nat)
    (h : PlainInv t) : PlainInv (t.set_shown_columns cols) := by
  exact ⟨h.1, rfl⟩

lemma plainInv_set_sort_col (t : PlainTable) (c : Nat) (a : Bool)
    (h : PlainInv t) : PlainInv (t.set_sort_col c a) := by
  unfold PlainTable.set_sort_col
  refine ⟨?_, rfl⟩
  cases a with
  | false =>
      by_cases hmem : 0 < t.sortcols.length ∧ c ∈ t.sortcols
      · simpa [hmem] using (t.row_order.reverse_perm.trans h.1)
      · simpa [hmem, npLexsort] using ordSort_perm _ _ _
  | true =>
      by_cases hempty :
          (if c ∈ t.sortcols then t.sortcols.erase c else t.sortcols ++ [c]) = []
      · simp [hempty]
      · simpa [hempty, npLexsort] using ordSort_perm _ _ _

lemma cellAt_orderedOf (data : List (List Int)) (ro co : List Nat) (r c : Nat)
    (hr : r < ro.length) (hc : c < co.length) :
    cellAt (orderedOf data ro co) r c = cellAt data (ro.getD r 0) (co.getD c 0) := by
  rw [orderedOf_map]
  unfold cellAt
  rw [List.getD_eq_getElem _ [] (by simpa using hr), List.getElem_map,
    List.getD_eq_getElem _ (0 : Int) (by simpa using hc), List.getElem_map,
    List.getD_eq_getElem ro 0 hr, List.getD_eq_getElem co 0 hc]

lemma set_sort_col_data (t : PlainTable) (c : Nat) (a : Bool) :
    (t.set_sort_col c a).data = t.data := by
  unfold PlainTable.set_sort_col
  dsimp only
  split <;> (try split) <;> (try split) <;> rfl

lemma sortcols_toggle (t : PlainTable) (c : Nat) :
    (t.set_sort_col c true).sortcols =
      if c ∈ t.sortcols then t.sortcols.erase c else t.sortcols ++ [c] := by
  by_cases h : c ∈ t.sortcols <;>
    by_cases h2 : (if c ∈ t.sortcols then t.sortcols.erase c else t.sortcols ++ [c]) = [] <;>
    simp [PlainTable.set_sort_col, h] at h2 ⊢ <;>
    simp [h2]

lemma row_order_toggle (t : PlainTable) (c : Nat) :
    (t.set_sort_col c true).row_order =
      if (t.set_sort_col c true).sortcols = [] then List.range t.data.length
      else npLexsort ((t.set_sort_col c true).sortcols.reverse.map (columnAt t.data))
        t.data.length := by
  rw [sortcols_toggle]
  by_cases h : c ∈ t.sortcols <;>
    by_cases h2 : (if c ∈ t.sortcols then t.sortcols.erase c else t.sortcols ++ [c]) = [] <;>
    simp [PlainTable.set_sort_col, h] at h2 ⊢ <;>
    simp [h2]

/-- Claim C1 (amended): `set_sort_col(colIndex, add=true)` toggles
membership of `colIndex` in the sort-column list (appended if absent,
removed if present); an emptied list resets the row order to the identity
permutation; otherwise the row order is a stable multi-key sort over the
sort-column list in which the last-added column has the WEAKEST priority —
the FIRST column of the list is primary (`np.lexsort` makes the last key
of its reversed key sequence, i.e. the first-listed column, primary).  In
particular, toggling column 0 then column 1 on a 3-column table sorts
primarily by column 0 and secondarily by column 1. -/
theorem claim_C1_toggle_sort (t : PlainTable) (c : Nat) :
    (c ∈ t.sortcols → (t.set_sort_col c true).sortcols = t.sortcols.erase c)
    ∧ (c ∉ t.sortcols → (t.set_sort_col c true).sortcols = t.sortcols ++ [c])
    ∧ ((t.set_sort_col c true).sortcols = [] →
        (t.set_sort_col c true).row_order = List.range t.data.length)
    ∧ ((t.set_sort_col c true).sortcols ≠ [] →
        (t.set_sort_col c true).row_order =
          stableMultiSort t.data (t.set_sort_col c true).sortcols t.data.length)
    ∧ (∀ d : List (List Int),
        (((PlainTable.init d 3).set_sort_col 0 true).set_sort_col 1 true).row_order =
          stableMultiSort d [0, 1] d.length) := by
  refine ⟨?_, ?_, ?_, ?_, ?_⟩
  · intro h; rw [sortcols_toggle, if_pos h]
  · intro h; rw [sortcols_toggle, if_neg h]
  · intro h; rw [row_order_toggle, if_pos h]
  · intro h
    rw [row_order_toggle, if_neg h, npLexsort_eq_multiSort]
  · intro d
    have h0 : ((PlainTable.init d 3).set_sort_col 0 true).sortcols = [0] := by
      rw [sortcols_toggle]
      simp [PlainTable.init]
    have h1 : (((PlainTable.init d 3).set_sort_col 0 true).set_sort_col 1 true).sortcols
        = [0, 1] := by
      rw [sortcols_toggle, h0]
      simp
    have hd : ((PlainTable.init d 3).set_sort_col 0 true).data = d :=
      set_sort_col_data _ _ _
    rw [row_order_toggle, h1]
    simp only [hd]
    rw [if_neg (by simp), npLexsort_eq_multiSort]

/-- Claim C1 counterexample data: 5 rows, 3 columns; column 0 is
`[1,0,2,3,4]`, column 1 is `[0,1,0,0,0]`. -/
def dataC1 : List (List Int) :=
  [[1, 0, 0], [0, 1, 0], [2, 0, 0], [3, 0, 0], [4, 0, 0]]

/-- Claim C1 counterexample: after toggling column 0 then column 1 with
`add=true`, the code's row order is `[1,0,2,3,4]` (primary key column 0),
while a stable lexicographic sort keyed primarily on column 1 and
secondarily on column 0 — the order the claim asserts — is `[0,2,3,4,1]`. -/
theorem claim_C1_counterexample :
    (((PlainTable.init dataC1 3).set_sort_col 0 true).set_sort_col 1 true).row_order
      = [1, 0, 2, 3, 4]
    ∧ stableMultiSort dataC1 [1, 0] 5 = [0, 2, 3, 4, 1]
    ∧ ([1, 0, 2, 3, 4] : List Nat) ≠ [0, 2, 3, 4, 1] := by
  decide

/-- Claim C1 witness: the four conditional parts of the theorem applied at
concrete states. -/
theorem claim_C1_witness :
    (0 ∉ (PlainTable.init [[5], [3]] 1).sortcols ∧
      ((PlainTable.init [[5], [3]] 1).set_sort_col 0 true).sortcols =
        (PlainTable.init [[5], [3]] 1).sortcols ++ [0])
    ∧ (((PlainTable.init [[5], [3]] 1).set_sort_col 0 true).sortcols ≠ [] ∧
        ((PlainTable.init [[5], [3]] 1).set_sort_col 0 true).row_order =
          stableMultiSort (PlainTable.init [[5], [3]] 1).data
            ((PlainTable.init [[5], [3]] 1).set_sort_col 0 true).sortcols
            (PlainTable.init [[5], [3]] 1).data.length)
    ∧ (0 ∈ ((PlainTable.init [[5], [3]] 1).set_sort_col 0 true).sortcols ∧
        (((PlainTable.init [[5], [3]] 1).set_sort_col 0 true).set_sort_col 0 true).sortcols
          = ((PlainTable.init [[5], [3]] 1).set_sort_col 0 true).sortcols.erase 0)
    ∧ ((((PlainTable.init [[5], [3]] 1).set_sort_col 0 true).set_sort_col 0 true).sortcols
          = [] ∧
        (((PlainTable.init [[5], [3]] 1).set_sort_col 0 true).set_sort_col 0 true).row_order
          = List.range ((PlainTable.init [[5], [3]] 1).set_sort_col 0 true).data.length) :=
  ⟨⟨by decide, (claim_C1_toggle_sort (PlainTable.init [[5], [3]] 1) 0).2.1 (by decide)⟩,
   ⟨by decide, (claim_C1_toggle_sort (PlainTable.init [[5], [3]] 1) 0).2.2.2.1 (by decide)⟩,
   ⟨by decide,
    (claim_C1_toggle_sort ((PlainTable.init [[5], [3]] 1).set_sort_col 0 true) 0).1
      (by decide)⟩,
   ⟨by decide,
    (claim_C1_toggle_sort ((PlainTable.init [[5], [3]] 1).set_sort_col 0 true) 0).2.2.1
      (by decide)⟩⟩

/-- The row order `set_sort_col(_, add=true)` leaves for a given
sort-column list: identity when the list is empty, otherwise the
`np.lexsort` over the reversed list (the consistency condition a state
satisfies after any add-toggle). -/
def rowOrderFor (data : List (List Int)) (sc : List Nat) : List Nat :=
  if sc = [] then List.range data.length
  else npLexsort (sc.reverse.map (columnAt data)) data.length

/-- Claim C7 (amended): toggling a column into and back out of the
multi-sort list restores the row order, PROVIDED the column was not
already in the list and the starting row order is the one determined by
the starting sort list (true of every state produced by add-toggles; it
fails for states whose order came from an `add=false` reversal, and
toggling a column that is already in the list moves it to the end of the
list instead). -/
theorem claim_C7_toggle_back (t : PlainTable) (c : Nat)
    (hc : c ∉ t.sortcols)
    (hro : t.row_order = rowOrderFor t.data t.sortcols) :
    ((t.set_sort_col c true).set_sort_col c true).row_order = t.row_order := by
  have h1 : (t.set_sort_col c true).sortcols = t.sortcols ++ [c] := by
    rw [sortcols_toggle, if_neg hc]
  have hd1 : (t.set_sort_col c true).data = t.data := set_sort_col_data _ _ _
  have hc2 : c ∈ (t.set_sort_col c true).sortcols := by
    rw [h1]; exact List.mem_append_right _ (List.mem_singleton.mpr rfl)
  have h2 : ((t.set_sort_col c true).set_sort_col c true).sortcols = t.sortcols := by
    rw [sortcols_toggle, if_pos hc2, h1, List.erase_append_right _ hc,
      List.erase_cons_head, List.append_nil]
  rw [row_order_toggle, h2, hd1, hro, rowOrderFor]

/-- Claim C7 counterexample state: a fresh 2-row table `[[0,1],[1,0]]`
sorted by two add-toggles (column 0 then column 1), so
`sortcols = [0,1]` and `row_order = [0,1]`. -/
def plainC7 : PlainTable :=
  ((PlainTable.init [[0, 1], [1, 0]] 2).set_sort_col 0 true).set_sort_col 1 true

/-- Claim C7 counterexample: toggling column 0 (already in the sort list)
twice with `add=true` moves it from the front to the back of the list, so
the row order changes from `[0,1]` (primary column 0) to `[1,0]` (primary
column 1) — it is NOT restored. -/
theorem claim_C7_counterexample :
    plainC7.row_order = [0, 1]
    ∧ ((plainC7.set_sort_col 0 true).set_sort_col 0 true).row_order = [1, 0]
    ∧ ([1, 0] : List Nat) ≠ [0, 1] := by
  decide

/-- Claim C7 witness: the amended theorem applied to a fresh 2-row,
1-column table and column 0. -/
theorem claim_C7_witness :
    (0 ∉ (PlainTable.init [[3], [1]] 1).sortcols ∧
      (PlainTable.init [[3], [1]] 1).row_order =
        rowOrderFor (PlainTable.init [[3], [1]] 1).data
          (PlainTable.init [[3], [1]] 1).sortcols)
    ∧ (((PlainTable.init [[3], [1]] 1).set_sort_col 0 true).set_sort_col 0 true).row_order
        = (PlainTable.init [[3], [1]] 1).row_order :=
  ⟨⟨by decide, by decide⟩,
   claim_C7_toggle_back (PlainTable.init [[3], [1]] 1) 0 (by decide) (by decide)⟩

lemma set_sort_col_false_mem (t : PlainTable) (c : Nat) (h : c ∈ t.sortcols) :
    (t.set_sort_col c false).row_order = t.row_order.reverse ∧
    (t.set_sort_col c false).sortdir = -t.sortdir ∧
    (t.set_sort_col c false).sortcols = t.sortcols := by
  have hcond : 0 < t.sortcols.length ∧ c ∈ t.sortcols :=
    ⟨List.length_pos.mpr (List.ne_nil_of_mem h), h⟩
  unfold PlainTable.set_sort_col
  dsimp only
  rw [if_pos rfl, if_pos hcond]
  exact ⟨rfl, rfl, rfl⟩

lemma set_sort_col_false_new (t : PlainTable) (c : Nat) (h : c ∉ t.sortcols) :
    (t.set_sort_col c false).sortcols = [c] ∧
    (t.set_sort_col c false).sortdir = 1 ∧
    (t.set_sort_col c false).row_order =
      npLexsort ([c].reverse.map (columnAt (selectCols t.data t.col_order)))
        t.data.length := by
  have hcond : ¬(0 < t.sortcols.length ∧ c ∈ t.sortcols) := fun hs => h hs.2
  unfold PlainTable.set_sort_col
  dsimp only
  rw [if_pos rfl, if_neg hcond]
  exact ⟨rfl, rfl, rfl⟩

/-- Claim C6 (amended): `set_sort_col(colIndex, add=false)` reverses the
current row order in place and flips the direction flag whenever
`colIndex` is ANYWHERE in the active sort-column list — not only when it
is the sole sort column (the code tests membership, leaving a multi-column
list intact).  Otherwise the sort state is replaced by the single column
`[colIndex]` with the direction flag reset to its default `1` (displayed
as descending; the computed order is the ascending stable sort on the
shown column `colIndex`).  Consequently two consecutive `add=false` calls
on the same column flip the order produced by the first exactly once. -/
theorem claim_C6_single_sort (t : PlainTable) (c : Nat) :
    (c ∈ t.sortcols →
      (t.set_sort_col c false).row_order = t.row_order.reverse
      ∧ (t.set_sort_col c false).sortdir = -t.sortdir
      ∧ (t.set_sort_col c false).sortcols = t.sortcols)
    ∧ (c ∉ t.sortcols →
      (t.set_sort_col c false).sortcols = [c]
      ∧ (t.set_sort_col c false).sortdir = 1
      ∧ (t.set_sort_col c false).row_order =
          stableMultiSort (selectCols t.data t.col_order) [c] t.data.length)
    ∧ ((t.set_sort_col c false).set_sort_col c false).row_order =
        (t.set_sort_col c false).row_order.reverse := by
  refine ⟨set_sort_col_false_mem t c, ?_, ?_⟩
  · intro h
    obtain ⟨h1, h2, h3⟩ := set_sort_col_false_new t c h
    exact ⟨h1, h2, by rw [h3, npLexsort_eq_multiSort]⟩
  · have hc2 : c ∈ (t.set_sort_col c false).sortcols := by
      by_cases h : c ∈ t.sortcols
      · rw [(set_sort_col_false_mem t c h).2.2]; exact h
      · rw [(set_sort_col_false_new t c h).1]; exact List.mem_singleton.mpr rfl
    exact (set_sort_col_false_mem _ c hc2).1

/-- Claim C6 counterexample state: `[[0,0],[1,1],[2,2]]` with
`sortcols = [0,1]` built by two add-toggles (row order `[0,1,2]`). -/
def plainC6 : PlainTable :=
  ((PlainTable.init [[0, 0], [1, 1], [2, 2]] 2).set_sort_col 0 true).set_sort_col 1 true

/-- Claim C6 counterexample: column 0 is in the two-column sort list but is
NOT the sole sort column; `set_sort_col(0, add=false)` nevertheless takes
the reversal branch: `sortcols` stays `[0,1]` (not the claimed `[0]`) and
the row order becomes the reversal `[2,1,0]`, not the claimed re-sort by
column 0 (which is `[0,1,2]`). -/
theorem claim_C6_counterexample :
    plainC6.sortcols = [0, 1]
    ∧ (plainC6.set_sort_col 0 false).sortcols = [0, 1]
    ∧ (plainC6.set_sort_col 0 false).row_order = [2, 1, 0]
    ∧ (plainC6.set_sort_col 0 false).sortdir = -1
    ∧ stableMultiSort (selectCols [[0, 0], [1, 1], [2, 2]] (List.range 2)) [0] 3
        = [0, 1, 2]
    ∧ ([2, 1, 0] : List Nat) ≠ [0, 1, 2] := by
  decide

/-- Claim C6 witness: both branches of the theorem at concrete states (a
fresh sort on column 0 of `[[5],[3]]`, then a flip of that sort). -/
theorem claim_C6_witness :
    (0 ∉ (PlainTable.init [[5], [3]] 1).sortcols ∧
      ((PlainTable.init [[5], [3]] 1).set_sort_col 0 false).sortcols = [0] ∧
      ((PlainTable.init [[5], [3]] 1).set_sort_col 0 false).sortdir = 1 ∧
      ((PlainTable.init [[5], [3]] 1).set_sort_col 0 false).row_order =
        stableMultiSort
          (selectCols (PlainTable.init [[5], [3]] 1).data
            (PlainTable.init [[5], [3]] 1).col_order) [0]
          (PlainTable.init [[5], [3]] 1).data.length)
    ∧ (0 ∈ ((PlainTable.init [[5], [3]] 1).set_sort_col 0 false).sortcols ∧
        (((PlainTable.init [[5], [3]] 1).set_sort_col 0 false).set_sort_col 0 false).row_order
          = ((PlainTable.init [[5], [3]] 1).set_sort_col 0 false).row_order.reverse) :=
  ⟨⟨by decide, (claim_C6_single_sort (PlainTable.init [[5], [3]] 1) 0).2.1 (by decide)⟩,
   ⟨by decide,
    ((claim_C6_single_sort ((PlainTable.init [[5], [3]] 1).set_sort_col 0 false) 0).1
      (by decide)).1⟩⟩

/-- Claim C10: after construction and after every `set_sort_col` or
`set_shown_columns` call, `row_order` is a permutation of the row indices
and `ordered_data` equals `data` indexed by `row_order` on rows and
`col_order` on columns; consequently
`GetValue(r,c) = data[row_order[r], col_order[c]]` for every displayed
cell, with `GetNumberRows` the length of `row_order` (and `GetNumberCols`
the length of `col_order` whenever a row exists). -/
theorem claim_C10_view_invariant (data : List (List Int)) (ncols : Nat)
    (hrect : ∀ row ∈ data, row.length = ncols) :
    PlainInv (PlainTable.init data ncols)
    ∧ (∀ (t : PlainTable) (c : Nat) (a : Bool),
        PlainInv t → PlainInv (t.set_sort_col c a))
    ∧ (∀ (t : PlainTable) (cols : List Nat),
        PlainInv t → PlainInv (t.set_shown_columns cols))
    ∧ (∀ t : PlainTable, PlainInv t →
        (∀ r c : Nat, r < t.row_order.length → c < t.col_order.length →
          t.GetValue r c = cellAt t.data (t.row_order.getD r 0) (t.col_order.getD c 0))
        ∧ t.GetNumberRows = t.row_order.length
        ∧ (0 < t.row_order.length → t.GetNumberCols = t.col_order.length)) := by
  refine ⟨plainInv_init data ncols hrect, plainInv_set_sort_col,
    plainInv_set_shown_columns, ?_⟩
  intro t ht
  refine ⟨?_, ?_, ?_⟩
  · intro r c hr hc
    unfold PlainTable.GetValue
    rw [ht.2]
    exact cellAt_orderedOf t.data t.row_order t.col_order r c hr hc
  · unfold PlainTable.GetNumberRows
    rw [ht.2, orderedOf_map, List.length_map]
  · intro hpos
    unfold PlainTable.GetNumberCols
    rw [ht.2, orderedOf_map]
    rw [List.getD_eq_getElem _ [] (by simpa using hpos), List.getElem_map]
    simp

/-- Claim C10 witness: the invariant established for the concrete table
`[[1,2],[3,4]]` at construction and after a sort toggle, with the
`GetValue` consequence evaluated at cell (0,1). -/
theorem claim_C10_witness :
    (∀ row ∈ [[(1 : Int), 2], [3, 4]], row.length = 2)
    ∧ PlainInv (PlainTable.init [[(1 : Int), 2], [3, 4]] 2)
    ∧ PlainInv ((PlainTable.init [[(1 : Int), 2], [3, 4]] 2).set_sort_col 0 true)
    ∧ ((0 : Nat) < 2 ∧ (1 : Nat) < 2 ∧
        (PlainTable.init [[(1 : Int), 2], [3, 4]] 2).GetValue 0 1 =
          cellAt [[(1 : Int), 2], [3, 4]]
            ((PlainTable.init [[(1 : Int), 2], [3, 4]] 2).row_order.getD 0 0)
            ((PlainTable.init [[(1 : Int), 2], [3, 4]] 2).col_order.getD 1 0)) := by
  have hrect : ∀ row ∈ [[(1 : Int), 2], [3, 4]], row.length = 2 := by decide
  have h := claim_C10_view_invariant [[(1 : Int), 2], [3, 4]] 2 hrect
  refine ⟨hrect, h.1, h.2.1 _ 0 true h.1, by decide, by decide, ?_⟩
  exact (h.2.2.2 _ h.1).1 0 1 (by decide) (by decide)

/-- Claim C3: when the batch insertion of a `GetValue` miss pushes the
cache past the hard ceiling of 5000 entries, the eviction loop deletes
exactly the oldest-inserted keys, in insertion order, leaving precisely
the 500 most recently inserted entries (the soft floor) with their values
intact; and re-inserting a key already present never moves it in the
insertion-order key list (pure FIFO, not LRU: plain lookups do not touch
`_keys` at all). -/
theorem claim_C3_fifo_eviction (c : Odict) (lo : Nat) (vals : List (List Int))
    (hn : (c.insertFrom lo vals).ks.Nodup)
    (hlen : 5000 < (c.insertFrom lo vals).ks.length) :
    (dbCacheFetch c lo vals).ks =
      (c.insertFrom lo vals).ks.drop ((c.insertFrom lo vals).ks.length - 500)
    ∧ (dbCacheFetch c lo vals).ks.length = 500
    ∧ (∀ k ∈ (c.insertFrom lo vals).ks.drop ((c.insertFrom lo vals).ks.length - 500),
        List.lookup k (dbCacheFetch c lo vals).dt =
          List.lookup k (c.insertFrom lo vals).dt)
    ∧ (∀ (d : Odict) (k : Nat) (v : List Int),
        (List.lookup k d.dt).isSome = true → (d.setItem k v).ks = d.ks) := by
  have hfetch : dbCacheFetch c lo vals = (c.insertFrom lo vals).evictOldest := by
    unfold dbCacheFetch
    rw [if_pos hlen]
  obtain ⟨h1, h2, h3⟩ := evictOldest_spec (c.insertFrom lo vals) hn hlen
  rw [hfetch]
  exact ⟨h1, h2, h3, setItem_existing_ks⟩

lemma insertFrom_single_fresh (c : Odict) (k : Nat) (v : List Int)
    (h : List.lookup k c.dt = none) :
    (c.insertFrom k [v]).ks = c.ks ++ [k] := by
  simp [Odict.insertFrom, Odict.setItem, h]

/-- Claim C3 witness cache: `n` keys already inserted (the `_data` side is
irrelevant to the key-list behaviour being witnessed). -/
def bigCacheN (n : Nat) : Odict := { ks := List.range n, dt := [] }

lemma bigCacheN_insert (n k : Nat) (v : List Int) :
    ((bigCacheN n).insertFrom k [v]).ks = List.range n ++ [k] := by
  have h : List.lookup k (bigCacheN n).dt = none := rfl
  rw [insertFrom_single_fresh _ k v h]
  rfl

/-- Claim C3 witness: inserting one more batch entry at key 5000 into a
5000-entry cache makes 5001 keys; the theorem then gives eviction down to
exactly 500 keys. -/
theorem claim_C3_witness :
    (((bigCacheN 5000).insertFrom 5000 [[0]]).ks.Nodup
      ∧ 5000 < ((bigCacheN 5000).insertFrom 5000 [[0]]).ks.length)
    ∧ (dbCacheFetch (bigCacheN 5000) 5000 [[0]]).ks.length = 500 := by
  have hks : ((bigCacheN 5000).insertFrom 5000 [[0]]).ks = List.range 5001 := by
    rw [bigCacheN_insert 5000 5000 [0], ← List.range_succ]
  have hn : ((bigCacheN 5000).insertFrom 5000 [[0]]).ks.Nodup := by
    rw [hks]; exact List.nodup_range 5001
  have hlen : 5000 < ((bigCacheN 5000).insertFrom 5000 [[0]]).ks.length := by
    rw [hks, List.length_range]
    omega
  exact ⟨⟨hn, hlen⟩, (claim_C3_fifo_eviction (bigCacheN 5000) 5000 [[0]] hn hlen).2.1⟩

/-- Claim C2 (amended): the database view's toggle follows the same
membership discipline (append if absent, remove if present) with the
most-recently-toggled column last in the generated `ORDER BY` clause, and
its ordering agrees with the in-memory view's when both end in the same
effective sort list and direction — e.g. a single `add=true` toggle of
column 0 from freshly constructed views yields the identical ascending
stable order by column 0 in both.  (They are NOT equivalent in general:
toggling the list empty resets the database view to `ORDER BY` the first
column rather than the unsorted order, its list starts at the first column
rather than empty, and a fresh non-add sort keeps the current direction.) -/
theorem claim_C2_db_plain (st : DBTable) (cols : List Nat) :
    (∀ c : Nat, (st.set_sort_col c true).order_by =
      if c ∈ st.order_by then
        (if st.order_by.erase c = [] then [0] else st.order_by.erase c)
      else st.order_by ++ [c])
    ∧ (st.set_shown_columns cols).shown_columns = cols
    ∧ (∀ (data : List (List Int)) (name : String) (ncols : Nat) (total : Int)
        (ki : Option (List Nat)),
        dbRowOrder data ((DBTable.init name ncols total ki).set_sort_col 0 true) =
          ((PlainTable.init data ncols).set_sort_col 0 true).row_order) := by
  refine ⟨?_, rfl, ?_⟩
  · intro c
    by_cases h : c ∈ st.order_by
    · by_cases h2 : st.order_by.erase c = [] <;>
        simp [DBTable.set_sort_col, h, h2]
    · simp [DBTable.set_sort_col, h]
  · intro data name ncols total ki
    have hob : ((DBTable.init name ncols total ki).set_sort_col 0 true).order_by
        = [0] := by
      simp [DBTable.set_sort_col, DBTable.init]
    have hdir : ((DBTable.init name ncols total ki).set_sort_col 0 true).order_direction
        = true := by
      simp [DBTable.set_sort_col, DBTable.init]
    have hplain : ((PlainTable.init data ncols).set_sort_col 0 true).row_order =
        npLexsort ([0].reverse.map (columnAt data)) data.length := by
      rw [row_order_toggle]
      have hsc : ((PlainTable.init data ncols).set_sort_col 0 true).sortcols = [0] := by
        rw [sortcols_toggle]
        simp [PlainTable.init]
      rw [hsc, if_neg (by simp)]
      rfl
    rw [hplain, npLexsort_eq_multiSort]
    unfold dbRowOrder
    rw [hob, hdir, if_pos rfl]
    rfl

/-- Claim C2 counterexample data: one column with values `[1, 0]`. -/
def dataC2 : List (List Int) := [[1], [0]]

/-- Claim C2 counterexample: after toggling column 0 with `add=true` twice,
the in-memory view resets to the unsorted order `[0,1]`, but the database
view's emptied `ORDER BY` list is reset to the FIRST column, so the store
returns the ascending order `[1,0]` — the two views disagree. -/
theorem claim_C2_counterexample :
    (((PlainTable.init dataC2 1).set_sort_col 0 true).set_sort_col 0 true).row_order
      = [0, 1]
    ∧ dbRowOrder dataC2
        (((DBTable.init "t" 1 2 none).set_sort_col 0 true).set_sort_col 0 true)
      = [1, 0]
    ∧ ([0, 1] : List Nat) ≠ [1, 0] := by
  decide

/-- Claim C4 evaluation: `GetNumberRows` with 10 total rows.  Under the
window `[2,5]` it returns `min(5,10) - 2 + 1 = 4` as the claim states, but
under the window `[0,5]` — a set interval whose lower endpoint is the
default page start 0 — the Python truthiness test `if self.rmax and
self.rmin` treats the window as absent and returns all 10 rows instead of
the claimed `min(5,10) - 0 + 1 = 6`. -/
theorem claim_C4_truthiness :
    dbGetNumberRows 10 2 5 = 4
    ∧ dbGetNumberRows 10 0 5 = 10
    ∧ min (5 : Int) 10 - 0 + 1 = 6
    ∧ (10 : Int) ≠ 6 := by
  decide

/-- Claim C5 (amended): the cache is cleared by every `set_shown_columns`
and `set_sort_col` call (and by `set_row_interval`), but `set_filter` —
inherited unchanged from the base class — only records the filter string
and does NOT clear the cache. -/
theorem claim_C5_invalidation (st : DBTable) (cols : List Nat) (c : Nat) (a : Bool)
    (f : String) (total : Int) (x y : Option PyVal) :
    (st.set_shown_columns cols).cache = Odict.empty
    ∧ (st.set_sort_col c a).cache = Odict.empty
    ∧ (st.set_row_interval total x y).2.cache = Odict.empty
    ∧ (st.set_filter f).cache = st.cache
    ∧ (st.set_filter f).filter = f := by
  refine ⟨rfl, rfl, ?_, rfl, rfl⟩
  unfold DBTable.set_row_interval
  dsimp only
  split <;> rfl

/-- Claim C5 counterexample state: a database view with one cached row. -/
def dbC5 : DBTable :=
  { table_name := "t", shown_columns := [0], order_by := [0],
    order_direction := true, cache := { ks := [7], dt := [(7, [1])] },
    rmin := .vint 0, rmax := .vint 1, filter := "", key_indices := none }

/-- Claim C5 counterexample: changing the filter leaves the stale cache
entry in place — the cache is NOT empty after `set_filter`. -/
theorem claim_C5_counterexample :
    (dbC5.set_filter "WHERE a > 0").cache.ks = [7]
    ∧ ([7] : List Nat) ≠ [] := by
  decide

/-- Claim C8 state for evaluation: a view with interval `[7, 9]` and one
cached row. -/
def dbC8 : DBTable :=
  { table_name := "t", shown_columns := [0], order_by := [0],
    order_direction := true, cache := { ks := [3], dt := [(3, [0])] },
    rmin := .vint 7, rmax := .vint 9, filter := "", key_indices := none }

/-- Claim C8 evaluation: `set_row_interval` clears the cache and applies
the `0` / total-row-count defaults, and an unparseable endpoint makes it
fail with `rmin`/`rmax` unchanged — but `int()` accepts NEGATIVE integers,
so `set_row_interval(-3, 5)` SUCCEEDS and stores `rmin = -3`, contradicting
the claimed rejection of endpoints that are not non-negative integers (and
the code's own error message `values must be positive numbers`).  The
original unconverted value (here the string `"12"`) is what gets stored. -/
theorem claim_C8_negative_accepted :
    (dbC8.set_row_interval 10 (some (.vint (-3))) (some (.vint 5))).1 = true
    ∧ (dbC8.set_row_interval 10 (some (.vint (-3))) (some (.vint 5))).2.rmin
        = .vint (-3)
    ∧ (dbC8.set_row_interval 10 (some (.vstr "abc")) (some (.vint 5))).1 = false
    ∧ (dbC8.set_row_interval 10 (some (.vstr "abc")) (some (.vint 5))).2.rmin
        = .vint 7
    ∧ (dbC8.set_row_interval 10 (some (.vstr "abc")) (some (.vint 5))).2.rmax
        = .vint 9
    ∧ (dbC8.set_row_interval 10 (some (.vstr "abc")) (some (.vint 5))).2.cache
        = Odict.empty
    ∧ (dbC8.set_row_interval 10 none none).1 = true
    ∧ (dbC8.set_row_interval 10 none none).2.rmin = .vint 0
    ∧ (dbC8.set_row_interval 10 none none).2.rmax = .vint 10
    ∧ (dbC8.set_row_interval 10 (some (.vstr "12")) none).1 = true
    ∧ (dbC8.set_row_interval 10 (some (.vstr "12")) none).2.rmin = .vstr "12" := by
  decide

/-- Claim C9 (amended): when key columns are configured,
`get_image_keys_at_row` returns the row's key tuple as a one-element list
on the designated image table, the tuple minus its last component on the
designated object table, and fails with `NotImplementedError` on every
other table; but when key columns are NOT configured — the default for
every other table — the call fails earlier, with the `TypeError` raised
inside `get_row_key`, never reaching the `NotImplementedError`. -/
theorem claim_C9_key_lookup (imgT objT : String) (st : DBTable)
    (data : List (List Int)) (row : Nat) :
    (∀ ks : List Nat, st.key_indices = some ks →
      (st.table_name = imgT →
        DBTable.get_image_keys_at_row imgT objT st data row =
          .ok [ks.map (fun c => cellAt data ((dbRowOrder data st).getD row 0) c)])
      ∧ (st.table_name ≠ imgT → st.table_name = objT →
        DBTable.get_image_keys_at_row imgT objT st data row =
          .ok [(ks.map (fun c =>
            cellAt data ((dbRowOrder data st).getD row 0) c)).dropLast])
      ∧ (st.table_name ≠ imgT → st.table_name ≠ objT →
        DBTable.get_image_keys_at_row imgT objT st data row =
          .error .notImplemented))
    ∧ (st.key_indices = none →
        DBTable.get_image_keys_at_row imgT objT st data row = .error .typeError) := by
  constructor
  · intro ks hks
    refine ⟨?_, ?_, ?_⟩
    · intro himg
      simp [DBTable.get_image_keys_at_row, DBTable.get_row_key, hks, himg]
    · intro hnimg hobj
      have hne : objT ≠ imgT := hobj ▸ hnimg
      simp [DBTable.get_image_keys_at_row, DBTable.get_row_key, hks, hnimg, hobj, hne]
    · intro hnimg hnobj
      simp [DBTable.get_image_keys_at_row, DBTable.get_row_key, hks, hnimg, hnobj]
  · intro hks
    simp [DBTable.get_image_keys_at_row, DBTable.get_row_key, hks]

/-- Claim C9 counterexample state: a table that is neither the image nor
the object table, with the default `key_indices = None`. -/
def dbC9other : DBTable :=
  { table_name := "other", shown_columns := [0], order_by := [0],
    order_direction := true, cache := Odict.empty,
    rmin := .vint 0, rmax := .vint 1, filter := "", key_indices := none }

/-- Claim C9 counterexample: on a non-image, non-object table in its
default state the call fails with a `TypeError` (from joining the
`None`-indexed label array inside `get_row_key`), not with the claimed
`NotImplementedError`. -/
theorem claim_C9_counterexample :
    DBTable.get_image_keys_at_row "image" "object" dbC9other [[3]] 0
      = .error .typeError
    ∧ PyErr.typeError ≠ PyErr.notImplemented := by
  exact ⟨rfl, by decide⟩

/-- Claim C9 image-table state for the witness. -/
def dbC9img : DBTable :=
  { table_name := "image", shown_columns := [0], order_by := [0],
    order_direction := true, cache := Odict.empty,
    rmin := .vint 0, rmax := .vint 2, filter := "", key_indices := some [0] }

/-- Claim C9 object-table state for the witness. -/
def dbC9obj : DBTable :=
  { dbC9img with table_name := "object", key_indices := some [0, 1] }

/-- Claim C9 other-table-with-keys state for the witness. -/
def dbC9oth : DBTable :=
  { dbC9img with table_name := "other" }

/-- Claim C9 witness: the three configured-key branches of the theorem,
each applied at a concrete state. -/
theorem claim_C9_witness :
    (dbC9img.key_indices = some [0] ∧ dbC9img.table_name = "image" ∧
      DBTable.get_image_keys_at_row "image" "object" dbC9img [[3], [4]] 0 =
        .ok [[0].map (fun c =>
          cellAt [[3], [4]] ((dbRowOrder [[3], [4]] dbC9img).getD 0 0) c)])
    ∧ (dbC9obj.table_name = "object" ∧
        DBTable.get_image_keys_at_row "image" "object" dbC9obj [[3, 5], [4, 6]] 0 =
          .ok [([0, 1].map (fun c =>
            cellAt [[3, 5], [4, 6]] ((dbRowOrder [[3, 5], [4, 6]] dbC9obj).getD 0 0)
              c)).dropLast])
    ∧ (dbC9oth.table_name = "other" ∧
        DBTable.get_image_keys_at_row "image" "object" dbC9oth [[3]] 0 =
          .error .notImplemented) :=
  ⟨⟨rfl, rfl,
    ((claim_C9_key_lookup "image" "object" dbC9img [[3], [4]] 0).1 [0] rfl).1 rfl⟩,
   ⟨rfl,
    ((claim_C9_key_lookup "image" "object" dbC9obj [[3, 5], [4, 6]] 0).1 [0, 1]
      rfl).2.1 (by decide) rfl⟩,
   ⟨rfl,
    ((claim_C9_key_lookup "image" "object" dbC9oth [[3]] 0).1 [0] rfl).2.2
      (by decide) (by decide)⟩⟩
